import Mathlib

/-!
Verification development for the CloudFS tiered-storage core
(src/cloudfs/cloudfs.c, cloudfs_dedup.c, cloudfs_cache.c).

Each C function relevant to the checked properties is shallowly embedded
as an executable Lean definition that transliterates its control flow.
Fixed-width C integers are modelled as Int (all values involved are far
from the 32/64-bit boundaries, and no overflow occurs on the traced
paths).  Effectful code is modelled as explicit state passing over small
state records.  Byte buffers are modelled as lists of Int.
-/

/-! ## Segment table (struct segment_hash_struct, cloudfs_dedup.h:16-21)

The in-memory segment table is a uthash hash table keyed by the 33-byte
hex hash string.  We model it as an association list in uthash insertion
order (HASH_ADD appends in application order, which is the order
update_hash_table_file iterates in). -/

structure SegEntry where
  hash : String
  length : Int
  refCount : Int
deriving Repr, DecidableEq

/-- HASH_FIND_STR on the segment table: the unique entry with the given
hash, if present. -/
def tableFind : List SegEntry → String → Option SegEntry
  | [], _ => none
  | e :: t, h => if e.hash = h then some e else tableFind t h

/-- The refcount increment performed on a duplicate segment
(cloudfs_dedup.c:358, current_segment->ref_count++). -/
def tableIncref : List SegEntry → String → List SegEntry
  | [], _ => []
  | e :: t, h =>
      if e.hash = h then { e with refCount := e.refCount + 1 } :: t
      else e :: tableIncref t h

/-- HASH_ADD_STR of a fresh entry with ref_count = 1
(cloudfs_dedup.c:535-546); uthash appends in application order. -/
def tableAdd (t : List SegEntry) (h : String) (len : Int) : List SegEntry :=
  t ++ [⟨h, len, 1⟩]

/-- HASH_DEL of the entry with the given hash. -/
def tableRemove : List SegEntry → String → List SegEntry
  | [], _ => []
  | e :: t, h => if e.hash = h then t else e :: tableRemove t h

/-- get_segment_size (cloudfs_dedup.c:80-90): the stored length of the
segment, or 0 when the hash is not in the table. -/
def get_segment_size (table : List SegEntry) (h : String) : Int :=
  match tableFind table h with
  | some e => e.length
  | none => 0

/-! ## Segment cache (cloudfs_cache.c)

The cache is a doubly linked list of hash strings with the most recently
used entry at the head (cache_head) and the least recently used at the
tail, plus a running byte total current_cache_size.  We model the list
as a Lean list (head = most recent) and the counter as an Int. -/

structure CacheState where
  entries : List String
  used : Int
deriving Repr, DecidableEq

/-- add_to_cache (cloudfs_cache.c:126-136): insert the hash at the head
of the list and add its segment size to current_cache_size. -/
def add_to_cache (table : List SegEntry) (h : String) (c : CacheState) :
    CacheState :=
  ⟨h :: c.entries, c.used + get_segment_size table h⟩

/-- The loop body of in_cache (cloudfs_cache.c:81-89), fuel-indexed.
The C loop tests strcmp(current_node->hash, hash) and returns 1 on a
match, but its body never advances current_node, so the recursive call
keeps the very same node list.  The fuel argument counts loop
iterations; a result of none means the loop ran that many iterations
without returning. -/
def in_cache_loop (h : String) : List String → Nat → Option Bool
  | _, 0 => none
  | [], _ + 1 => some false
  | n :: rest, fuel + 1 =>
      if n = h then some true else in_cache_loop h (n :: rest) fuel

/-- Sum of the cached segment sizes of a list of hashes. -/
def cacheSum (table : List SegEntry) (l : List String) : Int :=
  (l.map (get_segment_size table)).sum

/-- The eviction loop of make_space_in_cache (cloudfs_cache.c:166-186).
The C code walks to the tail of the doubly linked list and then, while
cache_size - current_cache_size < size, unlinks the cache file of the
current (tail-most) node, subtracts its segment size, and moves to its
predecessor; when the evicted node was the head (prev == NULL) it sets
cache_head = NULL and returns regardless of the space check.  The list
argument here is the cache list in reverse (least recently used first),
so the C tail is our head.  The while condition was already known true
when the first iteration starts (the caller returned otherwise), and it
is re-checked between iterations, which is what the if below does. -/
def evict_from_tail (table : List SegEntry) (cacheSize need : Int) :
    List String → Int → List String × Int
  | [], used => ([], used)
  | [x], used => ([], used - get_segment_size table x)
  | x :: y :: t, used =>
      let used1 := used - get_segment_size table x
      if cacheSize - used1 < need then
        evict_from_tail table cacheSize need (y :: t) used1
      else (y :: t, used1)

/-- make_space_in_cache (cloudfs_cache.c:162-187): return immediately
when cache_size - current_cache_size >= size, otherwise evict from the
least recently used end until enough space is free (or the cache is
empty). -/
def make_space_in_cache (table : List SegEntry) (cacheSize need : Int)
    (c : CacheState) : CacheState :=
  if cacheSize - c.used ≥ need then c
  else
    let r := evict_from_tail table cacheSize need c.entries.reverse c.used
    ⟨r.1.reverse, r.2⟩

/-- remove_from_cache (cloudfs_cache.c:91-124): unlink the first node
carrying the hash and subtract its segment size. -/
def remove_from_cache (table : List SegEntry) (h : String)
    (c : CacheState) : CacheState :=
  if h ∈ c.entries then
    ⟨c.entries.erase h, c.used - get_segment_size table h⟩
  else c

/-! ## Hash-table reload (rebuild_hash_table, cloudfs_dedup.c:92-136)

On startup the hash-table file is read record by record in file order;
each record is HASH_ADDed, and when a cache file for its hash exists the
hash is put back in the segment cache via add_to_cache, which inserts at
the head (most recently used end) of the list. -/

/-- The cache list produced by rebuild_hash_table from the hash-table
file entries (in file order), restoring exactly the entries whose cache
file exists, each via add_to_cache (an insertion at the head). -/
def rebuild_cache_list (hasCacheFile : String → Bool) :
    List String → List String → List String
  | [], acc => acc
  | h :: t, acc =>
      rebuild_cache_list hasCacheFile t (if hasCacheFile h then h :: acc else acc)

/-- Follows the words of the spec (section 4.4, reload): for every entry
of the hash-table file whose cache file exists, restore it into the
SegmentCache as the least-recently-used element, i.e. append it at the
eviction end (the tail) of the recency list. -/
def rebuild_cache_list_specLRU (hasCacheFile : String → Bool) :
    List String → List String → List String
  | [], acc => acc
  | h :: t, acc =>
      rebuild_cache_list_specLRU hasCacheFile t
        (if hasCacheFile h then acc ++ [h] else acc)

/-! ## Hash-table file persistence (update_hash_table_file,
cloudfs_dedup.c:138-174)

update_hash_table_file opens the file with O_WRONLY|O_CREAT|O_TRUNC and
then, for every table entry in uthash application order, performs
write(fd, current_segment, sizeof(struct segment_hash_struct)) — the
whole in-memory struct, not just its hash/length/ref_count fields.  On
LP64 the struct layout is: hash[33] at offset 0, 3 bytes of padding,
int length at 36, int ref_count at 40, 4 bytes of padding, then the
UT_hash_handle hh (six pointers and two unsigned ints, 56 bytes) at 48,
for sizeof = 104.  We model the emitted bytes as labelled pieces. -/

inductive FilePiece where
  | hashBytes (h : String)
  | padBytes (n : Nat)
  | int32 (v : Int)
  | hhBytes
deriving Repr, DecidableEq

/-- Size in bytes of one piece of an on-disk hash-table record (LP64). -/
def pieceLen : FilePiece → Nat
  | .hashBytes _ => 33
  | .padBytes n => n
  | .int32 _ => 4
  | .hhBytes => 56

/-- The bytes emitted for one table entry by
write(fd, current_segment, sizeof(struct segment_hash_struct)): the full
struct image, uthash handle and padding included. -/
def structRecord (e : SegEntry) : List FilePiece :=
  [.hashBytes e.hash, .padBytes 3, .int32 e.length, .int32 e.refCount,
   .padBytes 4, .hhBytes]

/-- Follows the words of the spec (section 6.3): a fixed record
hash[33] || length: int32 || refcount: int32 and nothing else. -/
def specRecord (e : SegEntry) : List FilePiece :=
  [.hashBytes e.hash, .int32 e.length, .int32 e.refCount]

/-- The write loop of update_hash_table_file: append the struct image of
each entry, in table order, to the (initially empty) file contents. -/
def writeRecords : List SegEntry → List FilePiece → List FilePiece
  | [], acc => acc
  | e :: t, acc => writeRecords t (acc ++ structRecord e)

/-- update_hash_table_file (cloudfs_dedup.c:138-174): O_TRUNC discards
whatever the file held before, then every entry is written in full. -/
def update_hash_table_file (_oldContents : List FilePiece)
    (table : List SegEntry) : List FilePiece :=
  writeRecords table []

/-- Total byte length of a piece list. -/
def piecesLen (l : List FilePiece) : Nat := (l.map pieceLen).sum

/-! ## Migration (dedup_migrate_file, cloudfs_dedup.c:197-934)

We model the handling of one finalised segment — the body that runs when
the chunker reports a boundary (lines 339-586) and, identically, the
final-segment block (lines 616-817).  State: the segment table, the set
of objects in the cloud store, the log of cloud_put_object calls, the
hash list appended to this file's metadata, and the read position in the
source file.  The appendOk flag tells whether the 33-byte metadata write
(line 555 resp. 793) succeeds; cloud put and bucket creation are taken
as succeeding (their failure paths abort before any table change). -/

structure MigState where
  table : List SegEntry
  cloud : List String
  putLog : List String
  meta : List String
  srcPos : Int
deriving Repr, DecidableEq

/-- Object store after cloud_put_object for hash h (bucket = first 3 hex
chars, key = rest): the object for h is present. -/
def cloudInsert (cloud : List String) (h : String) : List String :=
  if h ∈ cloud then cloud else cloud ++ [h]

/-- The metadata append of the segment hash (cloudfs_dedup.c:555-578,
resp. 793-816) and its failure cleanup: on a failed 33-byte write, the
entry the segment resolved to is HASH_DELed only when its ref_count is
exactly 1; nothing is deleted from the cloud and a duplicate segment
keeps its incremented refcount. -/
def appendMeta (appendOk : Bool) (h : String) (st : MigState) :
    MigState × Bool :=
  if appendOk then ({ st with meta := st.meta ++ [h] }, true)
  else
    match tableFind st.table h with
    | some e =>
        if e.refCount = 1 then
          ({ st with table := tableRemove st.table h }, false)
        else (st, false)
    | none => (st, false)

/-- One finalised segment of dedup_migrate_file (hash h, length len):
if the hash is already in the table, increment its refcount and seek the
source past the segment bytes without any upload (lines 357-381);
otherwise upload the segment (advancing the source by reading it) and
HASH_ADD a fresh entry with refcount 1 (lines 382-547).  Then
update_hash_table_file (persistence, no in-memory change) and the
33-byte metadata append (line 555). -/
def migrateSegment (appendOk : Bool) (h : String) (len : Int)
    (st : MigState) : MigState × Bool :=
  match tableFind st.table h with
  | some _ =>
      appendMeta appendOk h
        { st with table := tableIncref st.table h, srcPos := st.srcPos + len }
  | none =>
      appendMeta appendOk h
        { st with cloud := cloudInsert st.cloud h,
                  putLog := st.putLog ++ [h],
                  table := tableAdd st.table h len,
                  srcPos := st.srcPos + len }

/-! ## Reading a cloud file (dedup_read, cloudfs_dedup.c:1114-1288)

We model a cloud-tier file with no data-spill whose metadata is
consistent: the stored size equals the sum of the segment lengths and
every listed hash is in the segment table.  Segments are given by their
byte contents; read_segment with byte count n and offset off returns the
segment bytes [off, off+n) (cloudfs_dedup.c:1086-1097 seeks to off and
reads n bytes). -/

/-- Bytes [off, off+n) of a buffer, as read(2) after lseek delivers them
(short when the buffer ends). -/
def sliceBytes (l : List Int) (off n : Int) : List Int :=
  (l.drop off.toNat).take n.toNat

/-- The scan loop locating the segment containing the requested offset
(cloudfs_dedup.c:1148-1208): accumulate a running offset until
current_offset + segment length > offset.  Returns the remaining
segment list (headed by the found segment) and the running offset; none
models falling off the list into the data-spill path. -/
def findStartSeg (offset : Int) :
    List (List Int) → Int → Option (List (List Int) × Int)
  | [], _ => none
  | s :: rest, currentOff =>
      if currentOff + (s.length : Int) > offset then some (s :: rest, currentOff)
      else findStartSeg offset rest (currentOff + (s.length : Int))

/-- The copy loop of dedup_read (cloudfs_dedup.c:1210-1285), verbatim:
while total_bytes_read < size, compute bytes_to_read as
  if size - total > seg_len - seg_off then seg_len - seg_off
  else size - total - seg_off,
copy that many bytes of the current segment starting at seg_off, add
them to the total, advance current_offset by the full segment length,
zero seg_off, stop when total equals size or current_offset equals the
file size, else move to the next listed segment.  A run out of listed
segments (none) models the data-spill fallback, unreachable for the
consistent spill-free files considered here. -/
def dedupReadLoop (fileSize size : Int) :
    List (List Int) → Int → Int → Int → List Int → Option (List Int × Int)
  | [], _, _, _, _ => none
  | s :: rest, segOff, currentOff, totalRead, acc =>
      if totalRead < size then
        let bytesToRead :=
          if size - totalRead > (s.length : Int) - segOff
          then (s.length : Int) - segOff
          else size - totalRead - segOff
        let acc2 := acc ++ sliceBytes s segOff bytesToRead
        let total2 := totalRead + bytesToRead
        let cur2 := currentOff + (s.length : Int)
        if total2 = size then some (acc2, total2)
        else if cur2 = fileSize then some (acc2, total2)
        else dedupReadLoop fileSize size rest 0 cur2 total2 acc2
      else some (acc, totalRead)

/-- dedup_read (cloudfs_dedup.c:1114-1288) on a spill-free cloud file
with consistent metadata: read the stored file size, return 0 bytes when
offset >= file_size, locate the segment containing offset, then run the
copy loop with seg_off = offset - current_offset.  The result is the
bytes placed in the caller buffer and the return value. -/
def dedup_read (segs : List (List Int)) (size offset : Int) :
    Option (List Int × Int) :=
  let fileSize : Int := (segs.map (fun s => (s.length : Int))).sum
  if offset ≥ fileSize then some ([], 0)
  else
    match findStartSeg offset segs 0 with
    | none => none
    | some (rem, currentOff) =>
        dedupReadLoop fileSize size rem (offset - currentOff) currentOff 0 []

/-- The whole byte content of the file: its segments in order. -/
def fileBytes (segs : List (List Int)) : List Int := segs.flatten

/-! ## Pulling the last segment (dedup_get_last_segment,
cloudfs_dedup.c:1290-1451)

Called from cloudfs_write on the first append to a cloud-tier file: read
the last 33-byte hash from the metadata file, GET its object into the
data target (inflating when compression is on), truncate the metadata,
and decref the hash (removing it from cache, table and cloud when the
refcount reaches zero).  The truncation at line 1414 is
  ftruncate(meta_file, info.st_size - MD5_DIGEST_LENGTH*2 + 1)
which, with MD5_DIGEST_LENGTH = 16, shortens the file by 31 bytes — the
expression lacks the parentheses that the symmetric lseek at line 1300,
-1*(MD5_DIGEST_LENGTH*2+1), does have. -/

def MD5_DIGEST_LEN : Int := 16

/-- The refcount decrement (last_segment->ref_count--,
cloudfs_dedup.c:1432 resp. 1485). -/
def tableDecref : List SegEntry → String → List SegEntry
  | [], _ => []
  | e :: t, h =>
      if e.hash = h then { e with refCount := e.refCount - 1 } :: t
      else e :: tableDecref t h

structure GlsState where
  metaSize : Int
  table : List SegEntry
  cache : CacheState
  cloud : List String
  targetWritten : Bool
deriving Repr, DecidableEq

/-- dedup_get_last_segment on its success path, for a metadata file
whose last record is the hash h, h present in the cloud and in the
segment table: the object is fetched into the data target, the metadata
file is ftruncated to st_size - MD5_DIGEST_LENGTH*2 + 1 (transliterating
line 1414 as written), and the hash is decrefed — the entry removed,
the cache entry and the cloud object deleted when the refcount was 1.
The Bool is the success flag. -/
def dedup_get_last_segment (h : String) (st : GlsState) :
    GlsState × Bool :=
  if h ∈ st.cloud then
    let newMetaSize := st.metaSize - MD5_DIGEST_LEN * 2 + 1
    match tableFind st.table h with
    | none => (st, false)
    | some e =>
        if e.refCount > 1 then
          ({ st with metaSize := newMetaSize,
                     table := tableDecref st.table h,
                     targetWritten := true }, true)
        else
          ({ st with metaSize := newMetaSize,
                     table := tableRemove st.table h,
                     cache := remove_from_cache st.table h st.cache,
                     cloud := st.cloud.erase h,
                     targetWritten := true }, true)
  else (st, false)

/-! ## Open/release refcount map (cloudfs.c:1003-1297)

cloudfs_open and cloudfs_release share the in-memory uthash map
reference_counts from inode to open refcount.  We model it as an
association list from inode number to count and transliterate exactly
the control flow that decides whether the map is touched. -/

/-- HASH_FIND on reference_counts. -/
def refMapFind : List (Nat × Int) → Nat → Option Int
  | [], _ => none
  | (i, c) :: t, ino => if i = ino then some c else refMapFind t ino

/-- Increment (or create with count 1) the entry of an inode, as in
cloudfs_open lines 1094-1103. -/
def refMapBump : List (Nat × Int) → Nat → List (Nat × Int)
  | [], ino => [(ino, 1)]
  | (i, c) :: t, ino =>
      if i = ino then (i, c + 1) :: t else (i, c) :: refMapBump t ino

/-- Whether cloudfs_open reaches the HASH_FIND/HASH_ADD on
reference_counts for a successful open.  Line 1050: with no_dedup set,
a read-only open of a local-tier file (no metadata file) returns
SUCCESS immediately with fh = -1.  Line 1091: with dedup enabled, a
read-only open returns SUCCESS before the map is touched.  Every other
successful open falls through to lines 1094-1103. -/
def openTouchesRefMap (noDedup readOnly metaExists : Bool) : Bool :=
  if !metaExists && (noDedup && readOnly) then false
  else if !noDedup && readOnly then false
  else true

/-- The reference_counts map after a successful cloudfs_open of the
file with the given inode. -/
def cloudfs_open_refmap (noDedup readOnly metaExists : Bool) (ino : Nat)
    (m : List (Nat × Int)) : List (Nat × Int) :=
  if openTouchesRefMap noDedup readOnly metaExists then refMapBump m ino
  else m

/-- The release-time lookup.  cloudfs_release returns early (line 1127)
only when dedup is enabled and the open was read-only; otherwise it
performs HASH_FIND on reference_counts (line 1137) and dereferences the
result without a null check (lines 1144 and 1147).  The outer none
means no lookup happened; some (refMapFind ...) is the pointer that is
dereferenced. -/
def cloudfs_release_refLookup (noDedup readOnly : Bool) (ino : Nat)
    (m : List (Nat × Int)) : Option (Option Int) :=
  if !noDedup && readOnly then none
  else some (refMapFind m ino)

/-! ## Release and tier promotion (cloudfs_release, cloudfs.c:1107-1297)

Abstract per-file state for the tier decision taken by cloudfs_release:
whether the metadata file exists (cloud-tier iff it does), the on-disk
size of the proxy file, and whether a data-spill file exists.  The
model covers the successful execution of release for a write-capable
handle (a read-only handle with dedup enabled returns at line 1127
before any of this); size is the st_size obtained at lines 1135/1142,
which for a local-tier file is the proxy size.  refCount is the value
found in reference_counts. -/

structure TierState where
  metaExists : Bool
  proxySize : Int
  spillExists : Bool
deriving Repr, DecidableEq

/-- cloudfs_release on its success path.  Early exit (lines 1147-1157):
when other references remain or the file is local-tier with size at or
below the threshold, only the handle is closed.  Otherwise, with
no_dedup the whole file is put to the cloud and, for a local-tier file,
the metadata file is created and the proxy truncated to 0
(lines 1159-1237); with dedup, dedup_migrate_file runs — for a
local-tier file it creates the metadata file and truncates the proxy to
0 (cloudfs_dedup.c:222-232, 921-924), for a cloud-tier file it consumes
and unlinks the data-spill (cloudfs.c:1288-1292), and a cloud-tier file
with no data-spill is left untouched (release exit 3, lines 1253-1268). -/
def cloudfs_release_tier (noDedup : Bool) (threshold refCount size : Int)
    (fs : TierState) : TierState :=
  let inSsd := !fs.metaExists
  if refCount > 1 || (inSsd && size ≤ threshold) then fs
  else if noDedup then
    if inSsd then { metaExists := true, proxySize := 0,
                    spillExists := fs.spillExists }
    else { fs with spillExists := false }
  else
    if inSsd then { metaExists := true, proxySize := 0,
                    spillExists := fs.spillExists }
    else if !fs.spillExists then fs
    else { fs with spillExists := false }

/-! ## Helper lemmas -/

/-- Looking up a hash after tableIncref finds the entry with its
refcount one higher. -/
theorem tableFind_incref (t : List SegEntry) (h : String) (e : SegEntry)
    (hf : tableFind t h = some e) :
    tableFind (tableIncref t h) h = some { e with refCount := e.refCount + 1 } := by
  induction t with
  | nil => simp [tableFind] at hf
  | cons a t ih =>
      by_cases hah : a.hash = h
      · rw [tableFind, if_pos hah] at hf
        cases hf
        simp [tableIncref, hah, tableFind]
      · rw [tableFind, if_neg hah] at hf
        simp [tableIncref, hah, tableFind, ih hf]

/-- A fresh entry appended by tableAdd is found when the hash was
absent before. -/
theorem tableFind_tableAdd_self (t : List SegEntry) (h : String) (len : Int)
    (hf : tableFind t h = none) :
    tableFind (tableAdd t h len) h = some ⟨h, len, 1⟩ := by
  induction t with
  | nil => simp [tableAdd, tableFind]
  | cons a t ih =>
      have hah : ¬ a.hash = h := by
        intro hh; rw [tableFind, if_pos hh] at hf; exact Option.noConfusion hf
      rw [tableFind, if_neg hah] at hf
      simpa [tableAdd, tableFind, hah] using ih hf

/-- Removing a hash that was just appended by tableAdd restores the
original table when the hash was absent before. -/
theorem tableRemove_tableAdd (t : List SegEntry) (h : String) (len : Int)
    (hf : tableFind t h = none) :
    tableRemove (tableAdd t h len) h = t := by
  induction t with
  | nil => simp [tableAdd, tableRemove]
  | cons a t ih =>
      have hah : ¬ a.hash = h := by
        intro hh; rw [tableFind, if_pos hh] at hf; exact Option.noConfusion hf
      rw [tableFind, if_neg hah] at hf
      simpa [tableAdd, tableRemove, hah] using ih hf

/-- The hash is in the object store after cloudInsert. -/
theorem mem_cloudInsert_self (cloud : List String) (h : String) :
    h ∈ cloudInsert cloud h := by
  unfold cloudInsert
  by_cases hm : h ∈ cloud
  · rwa [if_pos hm]
  · rw [if_neg hm]; exact List.mem_append_right _ (List.mem_singleton.mpr rfl)

/-- Reversing a hash list does not change the cached-byte total. -/
theorem cacheSum_reverse (table : List SegEntry) (l : List String) :
    cacheSum table l.reverse = cacheSum table l := by
  simp [cacheSum, List.map_reverse, List.sum_reverse]

/-- When the counter equals the cached-byte total and the request fits
the budget at all, the eviction loop frees enough space. -/
theorem evict_from_tail_space (table : List SegEntry) (cacheSize need : Int)
    (hneed : need ≤ cacheSize) :
    ∀ (l : List String) (used : Int), used = cacheSum table l →
      need ≤ cacheSize - (evict_from_tail table cacheSize need l used).2 := by
  intro l
  induction l with
  | nil =>
      intro used hu
      simp only [cacheSum, List.map_nil, List.sum_nil] at hu
      simp [evict_from_tail, hu, hneed]
  | cons x t ih =>
      cases t with
      | nil =>
          intro used hu
          simp only [cacheSum, List.map_cons, List.map_nil, List.sum_cons,
            List.sum_nil] at hu
          simp [evict_from_tail]
          omega
      | cons y t2 =>
          intro used hu
          simp only [cacheSum, List.map_cons, List.sum_cons] at hu
          simp only [evict_from_tail]
          by_cases hc : cacheSize - (used - get_segment_size table x) < need
          · rw [if_pos hc]
            refine ih (used - get_segment_size table x) ?_
            simp only [cacheSum, List.map_cons, List.sum_cons]
            omega
          · rw [if_neg hc]
            omega

/-- The cache list built by rebuild_hash_table is the reverse of the
restorable entries, in front of whatever the accumulator held. -/
theorem rebuild_cache_list_eq (f : String → Bool) :
    ∀ (l acc : List String),
      rebuild_cache_list f l acc = (l.filter f).reverse ++ acc := by
  intro l
  induction l with
  | nil => intro acc; simp [rebuild_cache_list]
  | cons h t ih =>
      intro acc
      by_cases hf : f h
      · simp [rebuild_cache_list, hf, ih]
      · simp [rebuild_cache_list, hf, ih]

/-- Folding add_to_cache over a list of hashes prepends them in
reverse order. -/
theorem foldl_add_to_cache_entries (table : List SegEntry) :
    ∀ (later : List String) (c : CacheState),
      (later.foldl (fun acc h => add_to_cache table h acc) c).entries =
        later.reverse ++ c.entries := by
  intro later
  induction later with
  | nil => intro c; simp
  | cons x t ih =>
      intro c
      rw [List.foldl_cons, ih]
      simp [add_to_cache]

/-- The write loop of update_hash_table_file appends the struct image
of every entry in order. -/
theorem writeRecords_eq (t : List SegEntry) :
    ∀ acc, writeRecords t acc = acc ++ (t.map structRecord).flatten := by
  induction t with
  | nil => intro acc; simp [writeRecords]
  | cons e t ih => intro acc; simp [writeRecords, ih]

/-! ## Claim theorems -/

/-- C1: the claim states that the copy loop of dedup_read takes
min(remaining, segment length minus the in-segment offset, size minus
bytes already read) bytes from each visited segment, so that the bytes
returned are exactly the bytes of the file at the requested range.  On
the code this is false: when the request ends inside the first visited
segment, line 1215 computes size - total_bytes_read - segment_offset
instead of size - total_bytes_read, so the loop under-copies and then
walks into the next segment.  For a file of two 8-byte segments, a read
of 4 bytes at offset 2 returns 4 bytes of which the last two come from
the second segment instead of the first: the code delivers bytes 2,3
and 8,9 of the file where the claim requires bytes 2,3,4,5. -/
theorem C1_dedup_read_copies_wrong_bytes :
    dedup_read [[10, 11, 12, 13, 14, 15, 16, 17],
                [20, 21, 22, 23, 24, 25, 26, 27]] 4 2 =
      some ([12, 13, 20, 21], 4) ∧
    sliceBytes (fileBytes [[10, 11, 12, 13, 14, 15, 16, 17],
                           [20, 21, 22, 23, 24, 25, 26, 27]]) 2 4 =
      [12, 13, 14, 15] ∧
    ([12, 13, 20, 21] : List Int) ≠ [12, 13, 14, 15] := by
  decide

/-- C2: the claim states that after a successful dedup_get_last_segment
the metadata file is exactly 33 bytes shorter.  On the code this is
false: line 1414 truncates to st_size - MD5_DIGEST_LENGTH*2 + 1, which
is st_size - 31, so only 31 bytes are removed and two stray bytes of
the removed record remain.  On a metadata file of 65 bytes (32-byte
header plus one 33-byte hash record) the code truncates to 34 instead
of 32.  The decref half of the claim does hold: here the refcount was
1, so the entry leaves the table and the cache and cloud copies are
deleted. -/
theorem C2_truncates_31_not_33 :
    (dedup_get_last_segment "ab"
        ⟨65, [⟨"ab", 8, 1⟩], ⟨["ab"], 8⟩, ["ab"], false⟩).1.metaSize = 34 ∧
    (dedup_get_last_segment "ab"
        ⟨65, [⟨"ab", 8, 1⟩], ⟨["ab"], 8⟩, ["ab"], false⟩).1.table = [] ∧
    (dedup_get_last_segment "ab"
        ⟨65, [⟨"ab", 8, 1⟩], ⟨["ab"], 8⟩, ["ab"], false⟩).1.cloud = [] ∧
    (dedup_get_last_segment "ab"
        ⟨65, [⟨"ab", 8, 1⟩], ⟨["ab"], 8⟩, ["ab"], false⟩).2 = true ∧
    (34 : Int) ≠ 65 - 33 := by
  decide

/-- C8: the claim states that in_cache terminates for every finite
cache list, returning 1 exactly when some node carries the hash.  On
the code this is false: the loop body at cloudfs_cache.c:84-87 never
advances current_node, so for any non-empty cache whose head does not
carry the sought hash the loop runs forever.  In the fuel-indexed model
no iteration bound suffices for the one-entry cache list holding hash a
when asked about hash b. -/
theorem C8_in_cache_loops_forever :
    ∀ fuel : Nat, in_cache_loop "b" ["a"] fuel = none := by
  intro fuel
  induction fuel with
  | zero => rfl
  | succ n ih =>
      rw [in_cache_loop, if_neg (by decide)]
      exact ih

/-- C10: the claim states that the release-time lookup of the inode in
the open-refcount map always finds an entry, including when
deduplication is disabled and the file was opened read-only.  On the
code this is false exactly there: a read-only open of a local-tier file
with no_dedup set returns at cloudfs.c:1050-1052 before the map is
touched, while the early return of cloudfs_release (line 1127) only
covers the dedup-enabled case, so the release performs the HASH_FIND
(line 1137), obtains NULL, and dereferences it at lines 1144/1147. -/
theorem C10_release_lookup_finds_nothing :
    cloudfs_open_refmap true true false 7 [] = [] ∧
    cloudfs_release_refLookup true true 7
        (cloudfs_open_refmap true true false 7 []) = some none := by
  decide

/-- C4 counterexample: the claim requires that a failed metadata append
is compensated by deleting the just-put object and rolling back an
incref done for a duplicate segment.  At these concrete inputs the code
does neither: a duplicate of the only table entry keeps refcount 2
after the failed append, and a freshly uploaded object is still in the
cloud after the failed append. -/
theorem C4_counterexample :
    (migrateSegment false "aa" 4 ⟨[⟨"aa", 4, 1⟩], ["aa"], [], [], 0⟩).1.table =
      [⟨"aa", 4, 2⟩] ∧
    (⟨"aa", 4, 2⟩ : SegEntry) ≠ ⟨"aa", 4, 1⟩ ∧
    "bb" ∈ (migrateSegment false "bb" 4 ⟨[], [], [], [], 0⟩).1.cloud ∧
    (migrateSegment false "bb" 4 ⟨[], [], [], [], 0⟩).1.putLog = ["bb"] := by
  decide

/-- C4 (amended): when the metadata append of a segment hash fails, the
core removes the in-memory table entry of a segment that was newly
added (refcount 1) but does not delete the just-put object from the
cloud, and for a duplicate segment the incremented refcount is not
rolled back; in both cases failure is reported. -/
theorem C4_append_failure_cleanup (st : MigState) (h : String) (len : Int) :
    (tableFind st.table h = none →
      (migrateSegment false h len st).1.table = st.table ∧
      h ∈ (migrateSegment false h len st).1.cloud ∧
      (migrateSegment false h len st).2 = false) ∧
    (∀ e : SegEntry, tableFind st.table h = some e → 1 ≤ e.refCount →
      tableFind (migrateSegment false h len st).1.table h =
        some { e with refCount := e.refCount + 1 } ∧
      (migrateSegment false h len st).1.cloud = st.cloud ∧
      (migrateSegment false h len st).1.putLog = st.putLog ∧
      (migrateSegment false h len st).2 = false) := by
  constructor
  · intro hf
    have hfound := tableFind_tableAdd_self st.table h len hf
    simp only [migrateSegment, hf, appendMeta, hfound, if_neg (by decide : ¬ False)]
    constructor
    · simp [tableRemove_tableAdd st.table h len hf]
    constructor
    · exact mem_cloudInsert_self st.cloud h
    · rfl
  · intro e hf hpos
    have hinc := tableFind_incref st.table h e hf
    have hne : ¬ ({ e with refCount := e.refCount + 1 } : SegEntry).refCount = 1 := by
      simp only []
      omega
    simp only [migrateSegment, hf, appendMeta, hinc]
    rw [if_neg hne]
    exact ⟨hinc, rfl, rfl, rfl⟩

/-- C4 witness: the amended theorem applied at the two concrete inputs
of the counterexample. -/
theorem C4_append_failure_cleanup_witness :
    (migrateSegment false "bb" 4 ⟨[], [], [], [], 0⟩).1.table = [] ∧
    "bb" ∈ (migrateSegment false "bb" 4 ⟨[], [], [], [], 0⟩).1.cloud ∧
    tableFind (migrateSegment false "aa" 4
        ⟨[⟨"aa", 4, 1⟩], ["aa"], [], [], 0⟩).1.table "aa" = some ⟨"aa", 4, 2⟩ := by
  refine ⟨?_, ?_, ?_⟩
  · exact ((C4_append_failure_cleanup ⟨[], [], [], [], 0⟩ "bb" 4).1 rfl).1
  · exact ((C4_append_failure_cleanup ⟨[], [], [], [], 0⟩ "bb" 4).1 rfl).2.1
  · exact (((C4_append_failure_cleanup ⟨[⟨"aa", 4, 1⟩], ["aa"], [], [], 0⟩
      "aa" 4).2 ⟨"aa", 4, 1⟩ rfl (by decide)).1).trans (by decide)

/-- C5: during migration a segment whose hash is already in the table
has its refcount incremented by one, the source is seeked past its
bytes, no cloud put happens and no object appears, and its hash is
appended to the metadata of the file; consequently a second file with
identical content shares the entry with refcount 2 and uploads
nothing. -/
theorem C5_duplicate_segment_incref_no_upload (st : MigState) (h : String)
    (len : Int) (e : SegEntry) (hfind : tableFind st.table h = some e) :
    (migrateSegment true h len st).2 = true ∧
    tableFind (migrateSegment true h len st).1.table h =
      some { e with refCount := e.refCount + 1 } ∧
    (migrateSegment true h len st).1.putLog = st.putLog ∧
    (migrateSegment true h len st).1.cloud = st.cloud ∧
    (migrateSegment true h len st).1.meta = st.meta ++ [h] ∧
    (migrateSegment true h len st).1.srcPos = st.srcPos + len := by
  simp [migrateSegment, hfind, appendMeta, tableFind_incref st.table h e hfind]

/-- C5 witness: releasing a second file whose single segment equals the
one already uploaded for the first file leaves the shared entry at
refcount 2 with no new put. -/
theorem C5_duplicate_segment_witness :
    (migrateSegment true "ab" 4 ⟨[⟨"ab", 4, 1⟩], ["ab"], [], [], 0⟩).2 = true ∧
    tableFind (migrateSegment true "ab" 4
        ⟨[⟨"ab", 4, 1⟩], ["ab"], [], [], 0⟩).1.table "ab" = some ⟨"ab", 4, 2⟩ ∧
    (migrateSegment true "ab" 4 ⟨[⟨"ab", 4, 1⟩], ["ab"], [], [], 0⟩).1.putLog = [] := by
  have hmain := C5_duplicate_segment_incref_no_upload
    ⟨[⟨"ab", 4, 1⟩], ["ab"], [], [], 0⟩ "ab" 4 ⟨"ab", 4, 1⟩ (by decide)
  exact ⟨hmain.1, hmain.2.1.trans (by decide), hmain.2.2.1⟩

/-- C7 counterexample: the claim requires each restored entry to enter
the cache as the least-recently-used element.  Restoring a hash-table
file that lists a then b (both with cache files) yields the cache list
b,a (the entry restored last is the MOST recently used, add_to_cache
inserts at the head), while restoring each entry at the
least-recently-used end would yield a,b; the two disagree, and the
first entry to be evicted differs (a under the code, b under the
claim). -/
theorem C7_counterexample :
    rebuild_cache_list (fun _ => true) ["a", "b"] [] = ["b", "a"] ∧
    rebuild_cache_list_specLRU (fun _ => true) ["a", "b"] [] = ["a", "b"] ∧
    (["b", "a"] : List String) ≠ ["a", "b"] := by
  decide

/-- C7 (amended): every restored entry is inserted at the
most-recently-used end, so after startup the restored entries appear in
reverse hash-table-file order; and since every later insertion also
goes to the head, everything inserted later sits in front of all
restored entries, which therefore stay nearer the eviction end. -/
theorem C7_reload_inserts_most_recent (hasCacheFile : String → Bool)
    (entries : List String) (table : List SegEntry) (u : Int)
    (later : List String) :
    rebuild_cache_list hasCacheFile entries [] =
      (entries.filter hasCacheFile).reverse ∧
    (later.foldl (fun acc h => add_to_cache table h acc)
        ⟨rebuild_cache_list hasCacheFile entries [], u⟩).entries =
      later.reverse ++ (entries.filter hasCacheFile).reverse := by
  constructor
  · simpa using rebuild_cache_list_eq hasCacheFile entries []
  · rw [foldl_add_to_cache_entries]
    simpa using rebuild_cache_list_eq hasCacheFile entries []

/-- C9 counterexample: the claim requires each on-disk segment-table
record to be exactly hash[33] || length: int32 || refcount: int32 (41
bytes) and nothing else.  The code writes the whole in-memory struct
segment_hash_struct, which also contains alignment padding and the
uthash handle: 104 bytes on LP64, not 41. -/
theorem C9_counterexample :
    structRecord ⟨"0123456789abcdef0123456789abcdef", 4, 1⟩ ≠
      specRecord ⟨"0123456789abcdef0123456789abcdef", 4, 1⟩ ∧
    piecesLen (structRecord ⟨"0123456789abcdef0123456789abcdef", 4, 1⟩) = 104 ∧
    piecesLen (specRecord ⟨"0123456789abcdef0123456789abcdef", 4, 1⟩) = 41 := by
  decide

/-- C9 (amended): every rewrite of the segment-table file clobbers the
previous contents and emits one fixed-size record per table entry, in
table order; each record is the full 104-byte in-memory struct image —
hash[33], padding, int32 length, int32 refcount, padding and the uthash
handle — rather than the bare 41-byte triple of the claim. -/
theorem C9_hash_table_file_records (old : List FilePiece)
    (table : List SegEntry) :
    update_hash_table_file old table = (table.map structRecord).flatten ∧
    ∀ e : SegEntry, piecesLen (structRecord e) = 104 ∧
      structRecord e ≠ specRecord e := by
  constructor
  · simpa [update_hash_table_file] using writeRecords_eq table []
  · intro e
    constructor
    · simp [piecesLen, structRecord, pieceLen]
    · intro hEq
      have hlen := congrArg List.length hEq
      simp [structRecord, specRecord] at hlen

/-- C3: for the last write-capable open reference of a file, on the
success path of cloudfs_release: when the final size exceeds the
threshold the metadata file exists afterwards and the proxy occupies
zero bytes (a local-tier file is migrated with the proxy truncated; a
cloud-tier file already has a zero-byte proxy, which the tier invariant
hypothesis records); when the final size is at or below the threshold
and the file was local-tier, release takes the early exit and no
metadata file exists afterwards. -/
theorem C3_release_promotion_threshold (noDedup : Bool)
    (threshold size refCount : Int) (fs : TierState)
    (hlast : refCount = 1)
    (htier : fs.metaExists = true → fs.proxySize = 0) :
    (size > threshold →
      (cloudfs_release_tier noDedup threshold refCount size fs).metaExists = true ∧
      (cloudfs_release_tier noDedup threshold refCount size fs).proxySize = 0) ∧
    (size ≤ threshold ∧ fs.metaExists = false →
      (cloudfs_release_tier noDedup threshold refCount size fs).metaExists = false) := by
  subst hlast
  cases hm : fs.metaExists with
  | false =>
      by_cases hsz : size ≤ threshold
      · constructor
        · intro hgt; omega
        · intro _
          simp [cloudfs_release_tier, hm, hsz]
      · constructor
        · intro _
          cases noDedup <;> simp [cloudfs_release_tier, hm, hsz]
        · intro hle; omega
  | true =>
      have hp : fs.proxySize = 0 := htier hm
      constructor
      · intro _
        cases noDedup <;> cases hs : fs.spillExists <;>
          simp [cloudfs_release_tier, hm, hs, hp]
      · intro hle
        exact absurd hle.2 (by simp [hm])

/-- C3 witness: a local-tier file of 200 bytes against threshold 100,
released from its only reference with dedup enabled: afterwards the
metadata file exists and the proxy is zero bytes; and symmetrically the
early-exit conclusion holds vacuously. -/
theorem C3_release_promotion_threshold_witness :
    ((200 : Int) > 100 →
      (cloudfs_release_tier false 100 1 200 ⟨false, 200, false⟩).metaExists = true ∧
      (cloudfs_release_tier false 100 1 200 ⟨false, 200, false⟩).proxySize = 0) ∧
    ((200 : Int) ≤ 100 ∧ (⟨false, 200, false⟩ : TierState).metaExists = false →
      (cloudfs_release_tier false 100 1 200 ⟨false, 200, false⟩).metaExists = false) :=
  C3_release_promotion_threshold false 100 200 1 ⟨false, 200, false⟩ rfl
    (by intro h; exact absurd h (by decide))

/-- C6: with a consistent byte counter and a request that fits the
budget at all (guaranteed by init_cache, which disables caching unless
cache_size is at least max_seg_size, the largest possible segment),
make_space_in_cache always returns with at least the requested free
space, and inserting the segment afterwards keeps total cached bytes
within cache_size. -/
theorem C6_cache_bound (table : List SegEntry) (cacheSize need : Int)
    (c : CacheState) (hconsist : c.used = cacheSum table c.entries)
    (hneed : need ≤ cacheSize) :
    need ≤ cacheSize - (make_space_in_cache table cacheSize need c).used ∧
    ∀ h : String, get_segment_size table h = need →
      (add_to_cache table h (make_space_in_cache table cacheSize need c)).used ≤
        cacheSize := by
  have hpost : need ≤ cacheSize - (make_space_in_cache table cacheSize need c).used := by
    unfold make_space_in_cache
    by_cases h0 : cacheSize - c.used ≥ need
    · rw [if_pos h0]; omega
    · rw [if_neg h0]
      exact evict_from_tail_space table cacheSize need hneed c.entries.reverse c.used
        (by rw [hconsist, cacheSum_reverse])
  refine ⟨hpost, fun h hl => ?_⟩
  simp only [add_to_cache, hl]
  omega

/-- C6 witness: a full 8-byte cache holding two 4-byte segments; making
space for a third 4-byte segment evicts the least recently used entry
and the insertion lands within the budget. -/
theorem C6_cache_bound_witness :
    (4 : Int) ≤ 8 - (make_space_in_cache [⟨"h1", 4, 1⟩, ⟨"h2", 4, 1⟩, ⟨"h3", 4, 1⟩]
        8 4 ⟨["h1", "h2"], 8⟩).used ∧
    (add_to_cache [⟨"h1", 4, 1⟩, ⟨"h2", 4, 1⟩, ⟨"h3", 4, 1⟩] "h3"
        (make_space_in_cache [⟨"h1", 4, 1⟩, ⟨"h2", 4, 1⟩, ⟨"h3", 4, 1⟩]
          8 4 ⟨["h1", "h2"], 8⟩)).used ≤ 8 := by
  have hmain := C6_cache_bound [⟨"h1", 4, 1⟩, ⟨"h2", 4, 1⟩, ⟨"h3", 4, 1⟩] 8 4
    ⟨["h1", "h2"], 8⟩ (by decide) (by decide)
  exact ⟨hmain.1, hmain.2 "h3" (by decide)⟩
